import Mathlib

/-!
Verification development for the order-execution and risk-adjustment engine
of a Binance-futures trading bot.

The embedding models, over exact rational arithmetic:
* the per-symbol quantization functions `adjustPrecision` of `buy.ts`
  (plain floor) and of `sell.ts` / `close_position.ts` (floor with a
  minimal-unit safety replacement for positive inputs truncated to zero);
* the minNotional escalation `smartAdjustOrderForMinNotional` and the
  small-amount leverage escalation inlined in `buy`;
* the pre-submission pipelines of `buy`, `closePosition` and `shortSell`;
* the position-mode cache of `buy.ts` and the mismatch-recovery branch of
  the legacy `sell` in `close_position.ts`;
* the bounded retry loop shared by the order submitters;
* the per-batch margin ledger of the orchestration `run`.

JavaScript numbers are modelled as `ℚ`; `null` coerces to `0` in
arithmetic, as in JavaScript, via `jsNumber`.
-/

/-- Account-wide position mode: one-way or dual-side (hedge) mode. -/
inductive PositionMode where
  | oneWay
  | dualSide
deriving DecidableEq, Repr

/-- Position side tag sent with orders in dual-side mode. -/
inductive PositionSide where
  | LONG
  | SHORT
deriving DecidableEq, Repr

/-- Per-symbol precision configuration, the entries of `SYMBOL_PRECISION`:
quantity decimals, price decimals and the minimum notional value. -/
structure SymbolConfig where
  quantity : ℕ
  price : ℕ
  minNotional : ℚ
deriving DecidableEq, Repr

/-- `Math.pow(10, -config.quantity)`: the minimal tradable unit. -/
def minUnit (d : ℕ) : ℚ := 1 / 10 ^ d

/-- `Math.floor(amount * factor) / factor` with `factor = 10 ^ d`:
truncating fixed-decimal quantization. -/
def quantFloor (amount : ℚ) (d : ℕ) : ℚ := (⌊amount * 10 ^ d⌋ : ℚ) / 10 ^ d

namespace Buy

/-- `SYMBOL_PRECISION` table of `buy.ts` (with the default fallback
`{quantity: 3, price: 2, minNotional: 100}` for unknown symbols). -/
def SYMBOL_PRECISION : String → SymbolConfig
  | "BTCUSDT" => ⟨3, 1, 100⟩
  | "ETHUSDT" => ⟨2, 2, 100⟩
  | "BNBUSDT" => ⟨2, 2, 100⟩
  | "SOLUSDT" => ⟨2, 3, 100⟩
  | "ADAUSDT" => ⟨0, 4, 100⟩
  | "DOGEUSDT" => ⟨0, 5, 100⟩
  | _ => ⟨3, 2, 100⟩

/-- `adjustPrecision` of `buy.ts`: plain floor quantization, with no
replacement of a zero result. -/
def adjustPrecision (amount : ℚ) (d : ℕ) : ℚ := quantFloor amount d

end Buy

namespace Sell

/-- `SYMBOL_PRECISION` table of `sell.ts` / `close_position.ts`
(`BNBUSDT` has 1 quantity decimal here, unlike `buy.ts`). -/
def SYMBOL_PRECISION : String → SymbolConfig
  | "BTCUSDT" => ⟨3, 1, 100⟩
  | "ETHUSDT" => ⟨2, 2, 100⟩
  | "BNBUSDT" => ⟨1, 2, 100⟩
  | "SOLUSDT" => ⟨2, 3, 100⟩
  | "ADAUSDT" => ⟨0, 4, 100⟩
  | "DOGEUSDT" => ⟨0, 5, 100⟩
  | _ => ⟨3, 2, 100⟩

/-- `adjustPrecision` of `sell.ts` / `close_position.ts`: floor
quantization, but a zero result for a positive input is replaced with the
minimal unit `10^(-d)`. -/
def adjustPrecision (amount : ℚ) (d : ℕ) : ℚ :=
  if quantFloor amount d = 0 ∧ 0 < amount then minUnit d else quantFloor amount d

end Sell

namespace Sell

/-- The `adjustmentType` values returned by `smartAdjustAmount`:
`'min' | 'all' | 'percentage' | 'none'`. -/
inductive AdjustmentKind where
  | minTrade
  | entirePosition
  | clampToPosition
  | noChange
deriving DecidableEq, Repr

/-- Return value of `smartAdjustAmount` (the `reason` string is omitted). -/
structure AmountAdjustment where
  adjustedAmount : ℚ
  adjustmentType : AdjustmentKind
deriving DecidableEq, Repr

/-- `smartAdjustAmount` of `sell.ts` (identical to `smartAdjustSellAmount`
of `close_position.ts`): if the quantized amount is zero or below the
minimal unit, either raise it to the minimal unit (when the position can
cover it) or fall back to the entire position; afterwards clamp to the
position size. -/
def smartAdjustAmount (amount : ℚ) (d : ℕ) (positionSize : ℚ) : AmountAdjustment :=
  if adjustPrecision amount d = 0 ∨ adjustPrecision amount d < minUnit d then
    if minUnit d ≤ positionSize then
      ⟨minUnit d, AdjustmentKind.minTrade⟩
    else if 0 < positionSize then
      ⟨if adjustPrecision positionSize d = 0 then positionSize
        else adjustPrecision positionSize d,
       AdjustmentKind.entirePosition⟩
    else if positionSize < adjustPrecision amount d then
      ⟨adjustPrecision positionSize d, AdjustmentKind.clampToPosition⟩
    else ⟨adjustPrecision amount d, AdjustmentKind.noChange⟩
  else if positionSize < adjustPrecision amount d then
    ⟨adjustPrecision positionSize d, AdjustmentKind.clampToPosition⟩
  else ⟨adjustPrecision amount d, AdjustmentKind.noChange⟩

/-- An open position as reported by `fetchPositions`: signed contract
count (positive = long, negative = short). -/
structure HeldPosition where
  side : PositionSide
  contracts : ℚ
deriving DecidableEq, Repr

/-- The tail of `closePosition` after the close amount has been
determined: positivity check, final precision adjustment, minimal-amount
check, and the clamp to the position size (which only applies when a
position size was recorded, i.e. on the percentage path). -/
def closeFinalize (closeAmount positionSize : ℚ) (d : ℕ) : Except String ℚ :=
  if closeAmount ≤ 0 then
    Except.error "Close amount must be greater than 0"
  else if adjustPrecision closeAmount d ≤ 0 ∨ adjustPrecision closeAmount d < minUnit d then
    Except.error "Amount too small"
  else if 0 < positionSize ∧ positionSize < adjustPrecision closeAmount d then
    Except.ok (adjustPrecision positionSize d)
  else
    Except.ok (adjustPrecision closeAmount d)

/-- The quantity actually submitted by `closePosition` of `sell.ts`
(`Except.error` = an early `success:false` return).  When `amount` is
given explicitly the position is never fetched and `positionSize` stays
`0`; only the percentage path reads the held position and applies
`smartAdjustAmount`. -/
def closePositionQuantity (amount : Option ℚ) (percentage : ℚ)
    (position : Option HeldPosition) (d : ℕ) : Except String ℚ :=
  if percentage ≤ 0 ∨ 100 < percentage then
    Except.error "Percentage must be between 0 and 100"
  else
    match amount with
    | some a => closeFinalize a 0 d
    | none =>
      match position with
      | none => Except.error "No open position found"
      | some p =>
        if p.contracts = 0 then Except.error "No open position found"
        else
          closeFinalize
            (smartAdjustAmount (|p.contracts| * (percentage / 100)) d
              |p.contracts|).adjustedAmount
            |p.contracts| d

/-- The quantity submitted by `shortSell` of `sell.ts`: positivity check,
precision adjustment and minimal-amount check only — `shortSell` performs
no minNotional check. -/
def shortSellQuantity (amount : ℚ) (d : ℕ) : Except String ℚ :=
  if amount ≤ 0 then
    Except.error "Amount must be a valid number greater than 0"
  else if adjustPrecision amount d ≤ 0 ∨ adjustPrecision amount d < minUnit d then
    Except.error "Amount too small"
  else
    Except.ok (adjustPrecision amount d)

end Sell

/-- Order parameters sent to `newOrder`.  An absent JavaScript field is
modelled as `none` (for `positionSide`, `price`, `timeInForce`) or `false`
(for `reduceOnly`, which the code either sets to `true` or leaves
absent/deletes). -/
structure OrderParams where
  quantity : ℚ
  positionSide : Option PositionSide
  reduceOnly : Bool
  price : Option ℚ
  timeInForce : Option String
deriving DecidableEq, Repr

namespace Buy

/-- Return value of `smartAdjustOrderForMinNotional` (the
`adjustmentType` and `reason` fields are omitted; the code never changes
the leverage here, `adjustedLeverage` is always the input leverage). -/
structure MinNotionalAdjustment where
  adjustedAmount : ℚ
  adjustedLeverage : ℚ
deriving DecidableEq, Repr

/-- `smartAdjustOrderForMinNotional` of `buy.ts`: if the notional already
meets `minNotional` return unchanged; otherwise quantize
`minNotional / price` and, if that still undershoots the threshold, add
exactly one minimal precision unit. -/
def smartAdjustOrderForMinNotional (amount price leverage : ℚ) (d : ℕ) (m : ℚ) :
    MinNotionalAdjustment :=
  if m ≤ amount * price then ⟨amount, leverage⟩
  else if adjustPrecision (m / price) d * price < m then
    ⟨adjustPrecision (m / price) d + minUnit d, leverage⟩
  else ⟨adjustPrecision (m / price) d, leverage⟩

/-- The error message of the small-order rejection branch of `buy`. -/
def smallOrderRejectMsg : String :=
  "Amount too small: suggested leverage exceeds safe limit"

/-- The small-order escalation inlined in `buy` (triggered when the
quantized amount is zero or below the minimal unit): compute
`suggestedMultiplier = Math.ceil(minPositionValue / currentPositionValue)`
and `suggestedLeverage = Math.min(effectiveLeverage * suggestedMultiplier,
30)`; accept `(minAmount, suggestedLeverage)` iff `suggestedLeverage ≤ 30
&& suggestedMultiplier ≤ 20`.  When `currentPositionValue = 0` JavaScript
produces `suggestedMultiplier = Infinity`, failing the `≤ 20` cap, which
is modelled by the explicit zero guard. -/
def smallOrderEscalation (amount price leverage : ℚ) (d : ℕ) :
    Except String (ℚ × ℚ) :=
  if amount * price = 0 then Except.error smallOrderRejectMsg
  else if min (leverage * ((⌈minUnit d * price / (amount * price)⌉ : ℤ) : ℚ)) 30 ≤ 30
      ∧ (⌈minUnit d * price / (amount * price)⌉ : ℤ) ≤ 20 then
    Except.ok (minUnit d,
      min (leverage * ((⌈minUnit d * price / (amount * price)⌉ : ℤ) : ℚ)) 30)
  else Except.error smallOrderRejectMsg

/-- First adjustment step of `buy` (lines around `checkMinNotional` /
`smartAdjustOrderForMinNotional`): when the quantized notional is below
`minNotional`, escalate the amount and fail if the escalated notional
still undershoots. -/
def stepNotional (a1 leverage price : ℚ) (d : ℕ) (m : ℚ) :
    Except String (ℚ × ℚ) :=
  if a1 * price < m then
    if (smartAdjustOrderForMinNotional a1 price leverage d m).adjustedAmount * price < m then
      Except.error "Cannot meet minimum notional"
    else
      Except.ok ((smartAdjustOrderForMinNotional a1 price leverage d m).adjustedAmount,
        (smartAdjustOrderForMinNotional a1 price leverage d m).adjustedLeverage)
  else Except.ok (a1, leverage)

/-- Second adjustment step of `buy`: the small-order escalation, followed
by a re-run of the minNotional adjustment when the minimal unit still
undershoots the notional threshold. -/
def stepSmall (a2 lev2 price : ℚ) (d : ℕ) (m : ℚ) : Except String (ℚ × ℚ) :=
  if a2 = 0 ∨ a2 < minUnit d then
    match smallOrderEscalation a2 price lev2 d with
    | Except.error e => Except.error e
    | Except.ok (a3, lev3) =>
      if a3 * price < m then
        Except.ok ((smartAdjustOrderForMinNotional a3 price lev3 d m).adjustedAmount,
          (smartAdjustOrderForMinNotional a3 price lev3 d m).adjustedLeverage)
      else Except.ok (a3, lev3)
  else Except.ok (a2, lev2)

/-- The pre-submission pipeline of `buy` of `buy.ts`: parameter
validation, precision adjustment, minNotional escalation, small-order
escalation, final safety checks and the final minNotional gate
(`checkMinNotional`).  `Except.ok (amount, leverage)` is the quantity and
effective leverage submitted to the exchange; `Except.error` is an early
`success:false` return. -/
def buyPipeline (amount leverage price : ℚ) (d : ℕ) (m : ℚ) :
    Except String (ℚ × ℚ) :=
  if amount ≤ 0 then Except.error "Amount must be greater than 0"
  else if leverage < 1 ∨ 30 < leverage then
    Except.error "Leverage must be between 1 and 30"
  else
    match stepNotional (adjustPrecision amount d) leverage price d m with
    | Except.error e => Except.error e
    | Except.ok (a2, lev2) =>
      match stepSmall a2 lev2 price d m with
      | Except.error e => Except.error e
      | Except.ok (a4, lev4) =>
        if a4 ≤ 0 ∨ a4 < minUnit d then
          Except.error "Invalid adjusted amount"
        else if a4 * price < m then
          Except.error "Order value too small after adjustments"
        else Except.ok (a4, lev4)

/-- Order-parameter construction of `buy`: `positionSide: "LONG"` only in
dual-side mode; never `reduceOnly`; `timeInForce: "GTC"` only for limit
orders. -/
def buildOrderParams (mode : PositionMode) (quantity : ℚ) (price : Option ℚ) :
    OrderParams :=
  { quantity := quantity
    positionSide :=
      match mode with
      | PositionMode.dualSide => some PositionSide.LONG
      | PositionMode.oneWay => none
    reduceOnly := false
    price := price
    timeInForce :=
      match price with
      | some _ => some "GTC"
      | none => none }

/-- The possible outcomes of one position-mode resolution attempt against
the exchange, covering the branches of `getPositionMode`. -/
inductive ModeQueryOutcome where
  | sdkOk (dualSidePosition : Bool)
  | sdkFailRestOk (dualSidePosition : Bool)
  | restFail
  | outerThrow
deriving DecidableEq, Repr

/-- `dualSidePosition ? "DUAL_SIDE" : "ONE_WAY"`. -/
def modeOfDual (b : Bool) : PositionMode :=
  if b then PositionMode.dualSide else PositionMode.oneWay

/-- Result of one `getPositionMode` call: the returned mode, the new
value of the module-level `positionModeCache`, and whether an exchange
query was attempted. -/
structure ModeResolution where
  mode : PositionMode
  cache : Option PositionMode
  queriedExchange : Bool
deriving DecidableEq, Repr

/-- `getPositionMode` of `buy.ts` as a function of the current cache and
of the outcome the exchange would give: a cached value is returned
without any query; on a cache miss every path — SDK success, REST
fallback success, REST failure, and any thrown error — stores a value in
the cache, with every failure path defaulting to `ONE_WAY`. -/
def getPositionMode (cache : Option PositionMode) (outcome : ModeQueryOutcome) :
    ModeResolution :=
  match cache with
  | some m => ⟨m, some m, false⟩
  | none =>
    match outcome with
    | ModeQueryOutcome.sdkOk b => ⟨modeOfDual b, some (modeOfDual b), true⟩
    | ModeQueryOutcome.sdkFailRestOk b => ⟨modeOfDual b, some (modeOfDual b), true⟩
    | ModeQueryOutcome.restFail =>
      ⟨PositionMode.oneWay, some PositionMode.oneWay, true⟩
    | ModeQueryOutcome.outerThrow =>
      ⟨PositionMode.oneWay, some PositionMode.oneWay, true⟩

end Buy

namespace Sell

/-- Order-parameter construction of `closePosition`: in dual-side mode
tag the order with the side of the position being reduced; in one-way
mode set `reduceOnly: true` instead. -/
def buildCloseOrderParams (mode : PositionMode) (positionSide : PositionSide)
    (quantity : ℚ) (price : Option ℚ) : OrderParams :=
  { quantity := quantity
    positionSide :=
      match mode with
      | PositionMode.dualSide => some positionSide
      | PositionMode.oneWay => none
    reduceOnly :=
      match mode with
      | PositionMode.dualSide => false
      | PositionMode.oneWay => true
    price := price
    timeInForce :=
      match price with
      | some _ => some "GTC"
      | none => none }

/-- Order-parameter construction of `shortSell`: `positionSide: "SHORT"`
only in dual-side mode; opening shorts never carry `reduceOnly`. -/
def buildShortOrderParams (mode : PositionMode) (quantity : ℚ) (price : Option ℚ) :
    OrderParams :=
  { quantity := quantity
    positionSide :=
      match mode with
      | PositionMode.dualSide => some PositionSide.SHORT
      | PositionMode.oneWay => none
    reduceOnly := false
    price := price
    timeInForce :=
      match price with
      | some _ => some "GTC"
      | none => none }

end Sell

namespace ClosePos

/-- `dualSidePosition ? "DUAL_SIDE" : "ONE_WAY"` in the recovery branch. -/
def modeOfDualQuery (b : Bool) : PositionMode :=
  if b then PositionMode.dualSide else PositionMode.oneWay

/-- The position-side-mismatch recovery branch of the legacy `sell` in
`close_position.ts` (attempt 1, error message contains "position side
does not match"): it queries `positionMode()` afresh and rebuilds the
order parameters from that fresh answer, but it never writes to the
module-level `positionModeCache` of `buy.ts` — the pair returned is (the
unchanged cache, the rebuilt parameters). -/
def handleMismatch (cache : Option PositionMode) (freshDualSide : Bool)
    (params : OrderParams) (positionSide : PositionSide) :
    Option PositionMode × OrderParams :=
  (cache,
    match modeOfDualQuery freshDualSide with
    | PositionMode.dualSide =>
      { params with positionSide := some positionSide, reduceOnly := false }
    | PositionMode.oneWay =>
      { params with reduceOnly := true, positionSide := none })

/-- The order parameters in force before the mismatch error (a one-way
style reduce-only close of one contract). -/
def staleParams : OrderParams :=
  ⟨1, none, true, none, none⟩

end ClosePos

/-- The result type shared by `buy`, `closePosition` and `shortSell`
(`orderId` abstracts the fill details). -/
structure TradeResult where
  success : Bool
  orderId : Option String
  error : Option String
deriving DecidableEq, Repr

/-- Trace of the 3-attempt submission loop: the final outcome, the number
of attempts made, and the list of backoff delays slept between attempts.
`o k` is the outcome the exchange gives to attempt `k`. -/
structure SubmitOutcome where
  result : Except String String
  attemptsMade : ℕ
  delays : List ℕ
deriving Repr

/-- The retry loop shared by the order submitters (`for attempt = 1..3`):
stop on the first success; otherwise sleep `attempt * base` and retry; on
the third failure re-throw the last error.  `base` is the call-site
specific base delay (3000 ms in `buy`, 2000 ms in `closePosition` /
`shortSell` / legacy `sell`). -/
def submitWithRetry (o : ℕ → Except String String) (base : ℕ) : SubmitOutcome :=
  match o 1 with
  | Except.ok f => ⟨Except.ok f, 1, []⟩
  | Except.error _ =>
    match o 2 with
    | Except.ok f => ⟨Except.ok f, 2, [1 * base]⟩
    | Except.error _ =>
      match o 3 with
      | Except.ok f => ⟨Except.ok f, 3, [1 * base, 2 * base]⟩
      | Except.error e => ⟨Except.error e, 3, [1 * base, 2 * base]⟩

/-- The outermost try/catch boundary of the submitters: a success becomes
`{success: true, orderId}`, and any error thrown out of the retry loop is
caught and returned as `{success: false, error}` — no exception
propagates past this boundary. -/
def submitBoundary (o : ℕ → Except String String) (base : ℕ) : TradeResult :=
  match (submitWithRetry o base).result with
  | Except.ok oid => ⟨true, some oid, none⟩
  | Except.error e => ⟨false, none, some e⟩

namespace Orchestrator

/-- The `Opeartion` enum (sic) of the Prisma schema, as used by `run`. -/
inductive Opeartion where
  | Buy
  | Sell
  | Hold
  | Close
deriving DecidableEq, Repr

/-- The `object.buy` payload of a buy decision; any field may be `null`
(the guard in `run` checks only `amount` and `leverage`, not
`pricing`). -/
structure BuyFields where
  amount : Option ℚ
  pricing : Option ℚ
  leverage : Option ℚ
deriving DecidableEq, Repr

/-- One AI decision as processed by `run`, together with the outcomes of
the external calls it triggers: `riskAllowed` is the verdict of
`checkBuyRisk` (defined outside this repository slice) and `fillSuccess`
is whether the subsequent `buy()` call reports success. -/
structure Decision where
  opeartion : Opeartion
  buy : Option BuyFields
  riskAllowed : Bool
  fillSuccess : Bool
deriving DecidableEq, Repr

/-- JavaScript numeric coercion: `null` behaves as `0` in arithmetic. -/
def jsNumber : Option ℚ → ℚ
  | some q => q
  | none => 0

/-- `requiredMargin = (object.buy.amount * object.buy.pricing) /
object.buy.leverage`. -/
def requiredMargin (b : BuyFields) : ℚ :=
  jsNumber b.amount * jsNumber b.pricing / jsNumber b.leverage

/-- One iteration of the decision loop of `run`, restricted to its effect
on `remainingAvailableCash`: only a buy decision with its required fields
present, passing the risk check and the margin gate, and confirmed filled,
commits its margin.  Returns the new remaining cash and the committed
margin, if any. -/
def stepDecision (remaining : ℚ) (dec : Decision) : ℚ × Option ℚ :=
  match dec.opeartion with
  | Opeartion.Buy =>
    match dec.buy with
    | none => (remaining, none)
    | some b =>
      if b.amount = none ∨ b.leverage = none then (remaining, none)
      else if dec.riskAllowed = false then (remaining, none)
      else if remaining < requiredMargin b then (remaining, none)
      else if dec.fillSuccess then
        (remaining - requiredMargin b, some (requiredMargin b))
      else (remaining, none)
  | _ => (remaining, none)

/-- The sequential decision loop of `run`: processes the batch in input
order, threading `remainingAvailableCash` (initialised from
`availableCash`) and collecting the committed margins. -/
def runBatch (remaining : ℚ) : List Decision → ℚ × List ℚ
  | [] => (remaining, [])
  | dec :: rest =>
    ((runBatch (stepDecision remaining dec).1 rest).1,
      match (stepDecision remaining dec).2 with
      | some mg => mg :: (runBatch (stepDecision remaining dec).1 rest).2
      | none => (runBatch (stepDecision remaining dec).1 rest).2)

end Orchestrator

section QuantizationLemmas

lemma ten_pow_pos (d : ℕ) : (0 : ℚ) < 10 ^ d := by positivity

lemma minUnit_pos (d : ℕ) : 0 < minUnit d := by
  unfold minUnit; positivity

lemma quantFloor_le_self (a : ℚ) (d : ℕ) : quantFloor a d ≤ a := by
  unfold quantFloor
  rw [div_le_iff₀ (ten_pow_pos d)]
  exact Int.floor_le _

lemma quantFloor_nonneg {a : ℚ} (d : ℕ) (h : 0 ≤ a) : 0 ≤ quantFloor a d := by
  unfold quantFloor
  apply div_nonneg _ (ten_pow_pos d).le
  exact_mod_cast Int.floor_nonneg.mpr (mul_nonneg h (ten_pow_pos d).le)

/-- Evaluation helper: when `k ≤ a * 10^d < k + 1`, the quantized value is
`k / 10^d`. -/
lemma quantFloor_eval (a : ℚ) (d : ℕ) (k : ℤ) (h1 : (k : ℚ) ≤ a * 10 ^ d)
    (h2 : a * 10 ^ d < (k : ℚ) + 1) : quantFloor a d = (k : ℚ) / 10 ^ d := by
  unfold quantFloor
  rw [show ⌊a * 10 ^ d⌋ = k from Int.floor_eq_iff.mpr ⟨h1, by exact_mod_cast h2⟩]

lemma quantFloor_intMul (k : ℤ) (d : ℕ) :
    quantFloor ((k : ℚ) / 10 ^ d) d = (k : ℚ) / 10 ^ d := by
  unfold quantFloor
  rw [div_mul_cancel₀ _ (ten_pow_pos d).ne', Int.floor_intCast]

/-- A positive input to the guarded quantizer comes out as `k / 10^d` for
some integer `k ≥ 1`. -/
lemma sell_adjustPrecision_form (a : ℚ) (d : ℕ) (h : 0 < a) :
    ∃ k : ℤ, 1 ≤ k ∧ Sell.adjustPrecision a d = (k : ℚ) / 10 ^ d := by
  unfold Sell.adjustPrecision
  by_cases hz : quantFloor a d = 0
  · rw [if_pos ⟨hz, h⟩]
    exact ⟨1, le_refl 1, by unfold minUnit; norm_num⟩
  · rw [if_neg fun hc => hz hc.1]
    refine ⟨⌊a * 10 ^ d⌋, ?_, rfl⟩
    have h0 : 0 ≤ ⌊a * 10 ^ d⌋ :=
      Int.floor_nonneg.mpr (mul_nonneg h.le (ten_pow_pos d).le)
    have hne : ⌊a * 10 ^ d⌋ ≠ 0 := by
      intro he
      apply hz
      unfold quantFloor
      rw [he]
      simp
    omega

lemma sell_adjustPrecision_ge_minUnit (a : ℚ) (d : ℕ) (h : 0 < a) :
    minUnit d ≤ Sell.adjustPrecision a d := by
  obtain ⟨k, hk, he⟩ := sell_adjustPrecision_form a d h
  rw [he]
  unfold minUnit
  rw [div_le_div_iff₀ (ten_pow_pos d) (ten_pow_pos d)]
  have h1 : (1 : ℚ) ≤ (k : ℚ) := by exact_mod_cast hk
  exact mul_le_mul_of_nonneg_right h1 (ten_pow_pos d).le

lemma sell_adjustPrecision_pos_aux (a : ℚ) (d : ℕ) (h : 0 < a) :
    0 < Sell.adjustPrecision a d :=
  lt_of_lt_of_le (minUnit_pos d) (sell_adjustPrecision_ge_minUnit a d h)

lemma sell_adjustPrecision_fixed (a : ℚ) (d : ℕ) (h : 0 < a) :
    Sell.adjustPrecision (Sell.adjustPrecision a d) d = Sell.adjustPrecision a d := by
  obtain ⟨k, hk, he⟩ := sell_adjustPrecision_form a d h
  have hpos : (0 : ℚ) < (k : ℚ) / 10 ^ d := by
    apply div_pos _ (ten_pow_pos d)
    exact_mod_cast lt_of_lt_of_le one_pos hk
  rw [he]
  unfold Sell.adjustPrecision
  rw [quantFloor_intMul]
  rw [if_neg fun hc => hpos.ne' hc.1]

lemma sell_adjustPrecision_le (a p : ℚ) (d : ℕ) (hle : a ≤ p)
    (hmin : minUnit d ≤ p) : Sell.adjustPrecision a d ≤ p := by
  unfold Sell.adjustPrecision
  split
  · exact hmin
  · exact le_trans (quantFloor_le_self a d) hle

end QuantizationLemmas

/-- C1 (counterexample). The claim attributes the zero-result safety
replacement to the quantization function of both call sites, but the
`adjustPrecision` of `buy.ts` is a plain floor: at the positive raw amount
`1/10000` with 3 quantity decimals it returns exactly `0`. -/
theorem buy_adjustPrecision_zero_on_positive :
    (0 : ℚ) < 1 / 10000 ∧ Buy.adjustPrecision (1 / 10000) 3 = 0 := by
  constructor
  · norm_num
  · unfold Buy.adjustPrecision quantFloor
    have h1 : ((1 : ℚ) / 10000) * 10 ^ 3 = 1 / 10 := by norm_num
    have h2 : ⌊(1 : ℚ) / 10⌋ = 0 := by
      rw [Int.floor_eq_iff]
      norm_num
    rw [h1, h2]
    norm_num

/-- C1 (amended claim). For every raw amount `raw > 0` and every quantity
precision `d`, the `adjustPrecision` of `sell.ts` / `close_position.ts`
returns a strictly positive result: it computes `floor(raw * 10^d)/10^d`
and replaces a zero result with the minimal unit `10^(-d)`.  (The
`adjustPrecision` of `buy.ts` lacks the replacement and can return 0.) -/
theorem sell_adjustPrecision_pos (raw : ℚ) (d : ℕ) (h : 0 < raw) :
    0 < Sell.adjustPrecision raw d :=
  sell_adjustPrecision_pos_aux raw d h

/-- Witness for `sell_adjustPrecision_pos` at `raw = 1/10000`, `d = 3`. -/
theorem sell_adjustPrecision_pos_witness :
    (0 : ℚ) < 1 / 10000 ∧ 0 < Sell.adjustPrecision (1 / 10000) 3 :=
  ⟨by norm_num, sell_adjustPrecision_pos (1 / 10000) 3 (by norm_num)⟩

section CloseLemmas

lemma smartAdjustAmount_noChange (a p : ℚ) (d : ℕ) (h : 0 < a) (hle : a ≤ p)
    (hmin : minUnit d ≤ p) :
    Sell.smartAdjustAmount a d p =
      ⟨Sell.adjustPrecision a d, Sell.AdjustmentKind.noChange⟩ := by
  have hge := sell_adjustPrecision_ge_minUnit a d h
  have hpos := sell_adjustPrecision_pos_aux a d h
  have hble : Sell.adjustPrecision a d ≤ p := sell_adjustPrecision_le a p d hle hmin
  unfold Sell.smartAdjustAmount
  rw [if_neg, if_neg (not_lt.mpr hble)]
  intro hc
  rcases hc with hc | hc
  · exact hpos.ne' hc
  · exact absurd hc (not_lt.mpr hge)

lemma closeFinalize_ok (x p : ℚ) (d : ℕ) (hx0 : 0 < x) (hxmin : minUnit d ≤ x)
    (hfix : Sell.adjustPrecision x d = x) (hxle : x ≤ p) :
    Sell.closeFinalize x p d = Except.ok x := by
  unfold Sell.closeFinalize
  rw [if_neg (not_le.mpr hx0), hfix, if_neg, if_neg]
  · intro hc
    exact absurd hc.2 (not_lt.mpr hxle)
  · intro hc
    rcases hc with hc | hc
    · exact absurd hc (not_le.mpr hx0)
    · exact absurd hc (not_lt.mpr hxmin)

lemma sell_adjustPrecision_eval_five : Sell.adjustPrecision 5 3 = 5 := by
  unfold Sell.adjustPrecision
  rw [quantFloor_eval 5 3 5000 (by norm_num) (by norm_num)]
  rw [if_neg (by norm_num)]
  norm_num

lemma sell_adjustPrecision_eval_half : Sell.adjustPrecision (1 / 2) 3 = 1 / 2 := by
  unfold Sell.adjustPrecision
  rw [quantFloor_eval (1 / 2) 3 500 (by norm_num) (by norm_num)]
  rw [if_neg (by norm_num)]
  norm_num

end CloseLemmas

/-- C2 (counterexample). When the close amount is given explicitly,
`closePosition` never fetches the position and never clamps: with an
explicit amount of `5` contracts against a held long position of `1`
contract it submits `5 > 1`, violating the claim. -/
theorem closePosition_explicit_amount_exceeds_position :
    Sell.closePositionQuantity (some 5) 100 (some ⟨PositionSide.LONG, 1⟩) 3 =
      Except.ok 5 ∧ ¬ (5 : ℚ) ≤ |(1 : ℚ)| := by
  constructor
  · unfold Sell.closePositionQuantity
    rw [if_neg (by norm_num)]
    show Sell.closeFinalize 5 0 3 = Except.ok 5
    unfold Sell.closeFinalize
    rw [sell_adjustPrecision_eval_five]
    rw [if_neg (by norm_num), if_neg (by unfold minUnit; norm_num),
      if_neg (by norm_num)]
  · rw [abs_one]
    norm_num

/-- C2 (amended claim). When the close amount is computed from a
percentage of the held position (the `amount` parameter absent), the
percentage is in `(0, 100]`, and the held position is at least the
minimal tradable unit, the amount finally submitted by `closePosition` is
at most the currently-held contracts.  (The explicit-`amount` path applies
no clamp at all, and a position below the minimal unit is raised to the
minimal unit, exceeding the holding.) -/
theorem closePosition_percentage_le_position (pct c : ℚ) (ps : PositionSide)
    (d : ℕ) (a : ℚ) (h0 : 0 < pct) (h100 : pct ≤ 100)
    (hmin : minUnit d ≤ |c|)
    (h : Sell.closePositionQuantity none pct (some ⟨ps, c⟩) d = Except.ok a) :
    a ≤ |c| := by
  have hcpos : (0 : ℚ) < |c| := lt_of_lt_of_le (minUnit_pos d) hmin
  have hcne : c ≠ 0 := fun h' => by
    rw [h', abs_zero] at hcpos
    exact lt_irrefl _ hcpos
  have hA0 : 0 < |c| * (pct / 100) := mul_pos hcpos (by positivity)
  have hAle : |c| * (pct / 100) ≤ |c| := by
    have hle1 : pct / 100 ≤ 1 := by linarith
    calc |c| * (pct / 100) ≤ |c| * 1 :=
          mul_le_mul_of_nonneg_left hle1 hcpos.le
    _ = |c| := mul_one _
  have hx0 := sell_adjustPrecision_pos_aux (|c| * (pct / 100)) d hA0
  have hxmin := sell_adjustPrecision_ge_minUnit (|c| * (pct / 100)) d hA0
  have hxfix := sell_adjustPrecision_fixed (|c| * (pct / 100)) d hA0
  have hxle := sell_adjustPrecision_le (|c| * (pct / 100)) (|c|) d hAle hmin
  unfold Sell.closePositionQuantity at h
  rw [if_neg (by push_neg; exact ⟨h0, h100⟩)] at h
  simp only at h
  rw [if_neg hcne] at h
  rw [smartAdjustAmount_noChange (|c| * (pct / 100)) (|c|) d hA0 hAle hmin] at h
  simp only at h
  rw [closeFinalize_ok _ _ d hx0 hxmin hxfix hxle] at h
  injection h with h'
  rw [← h']
  exact hxle

/-- Witness for `closePosition_percentage_le_position`: closing 50% of a
1-contract long position with 3 quantity decimals submits 0.5 ≤ 1. -/
theorem closePosition_percentage_le_position_witness :
    Sell.closePositionQuantity none 50 (some ⟨PositionSide.LONG, 1⟩) 3 =
      Except.ok (1 / 2) ∧ (1 / 2 : ℚ) ≤ |(1 : ℚ)| := by
  have hrun : Sell.closePositionQuantity none 50 (some ⟨PositionSide.LONG, 1⟩) 3 =
      Except.ok (1 / 2) := by
    unfold Sell.closePositionQuantity
    rw [if_neg (by norm_num)]
    show (if (1 : ℚ) = 0 then Except.error "No open position found"
        else Sell.closeFinalize
          (Sell.smartAdjustAmount (|(1 : ℚ)| * (50 / 100)) 3 |(1 : ℚ)|).adjustedAmount
          |(1 : ℚ)| 3) = Except.ok (1 / 2)
    rw [if_neg (by norm_num : ¬ (1 : ℚ) = 0), abs_one]
    rw [show (1 : ℚ) * (50 / 100) = 1 / 2 by norm_num]
    rw [smartAdjustAmount_noChange (1 / 2) 1 3 (by norm_num) (by norm_num)
      (by unfold minUnit; norm_num)]
    show Sell.closeFinalize (Sell.adjustPrecision (1 / 2) 3) 1 3 = Except.ok (1 / 2)
    rw [sell_adjustPrecision_eval_half]
    exact closeFinalize_ok (1 / 2) 1 3 (by norm_num) (by unfold minUnit; norm_num)
      sell_adjustPrecision_eval_half (by norm_num)
  refine ⟨hrun, ?_⟩
  exact closePosition_percentage_le_position 50 1 PositionSide.LONG 3 (1 / 2)
    (by norm_num) (by norm_num) (by unfold minUnit; rw [abs_one]; norm_num) hrun

section BuyLemmas

lemma sell_adjustPrecision_eval_unit : Sell.adjustPrecision (1 / 1000) 3 = 1 / 1000 := by
  unfold Sell.adjustPrecision
  rw [quantFloor_eval (1 / 1000) 3 1 (by norm_num) (by norm_num)]
  rw [if_neg (by norm_num)]
  norm_num

lemma buy_adjustPrecision_eval_three : Buy.adjustPrecision (3 / 1000) 3 = 3 / 1000 := by
  unfold Buy.adjustPrecision
  rw [quantFloor_eval (3 / 1000) 3 3 (by norm_num) (by norm_num)]
  norm_num

end BuyLemmas

/-- C3 (counterexample). `shortSell` performs no minNotional check: an
order of 0.001 BTC passes its submission gate although its notional at a
mark price of 50000 is 50, below the 100 USDT `minNotional` of the
BTCUSDT rule. -/
theorem shortSell_below_minNotional_submitted :
    Sell.shortSellQuantity (1 / 1000) 3 = Except.ok (1 / 1000)
    ∧ (1 / 1000 : ℚ) * 50000 < (Sell.SYMBOL_PRECISION "BTCUSDT").minNotional := by
  constructor
  · unfold Sell.shortSellQuantity
    rw [sell_adjustPrecision_eval_unit]
    rw [if_neg (by norm_num), if_neg (by unfold minUnit; norm_num)]
  · rw [show (Sell.SYMBOL_PRECISION "BTCUSDT").minNotional = 100 from rfl]
    norm_num

/-- C3 (amended claim). For `buy` the claim holds: every order reaching
submission has passed the final `checkMinNotional` gate, so its quantized
amount times the price satisfies the minNotional threshold, and an order
that cannot meet it after adjustment is rejected with `success:false`
before submission.  (For `shortSell` the claim fails: it performs no
minNotional check at all.) -/
theorem buy_submission_meets_minNotional (amount leverage price : ℚ) (d : ℕ)
    (m a l : ℚ) (h : Buy.buyPipeline amount leverage price d m = Except.ok (a, l)) :
    m ≤ a * price := by
  unfold Buy.buyPipeline at h
  split at h
  · exact Except.noConfusion h
  split at h
  · exact Except.noConfusion h
  split at h
  · exact Except.noConfusion h
  split at h
  · exact Except.noConfusion h
  split at h
  · exact Except.noConfusion h
  split at h
  · exact Except.noConfusion h
  next hnot =>
    rw [Except.ok.injEq, Prod.mk.injEq] at h
    obtain ⟨rfl, rfl⟩ := h
    exact not_lt.mp hnot

/-- Witness for `buy_submission_meets_minNotional`: a 0.003 BTC buy at
price 50000 with the BTCUSDT rule reaches submission and its notional 150
meets the 100 threshold. -/
theorem buy_submission_meets_minNotional_witness :
    Buy.buyPipeline (3 / 1000) 10 50000 3 100 = Except.ok (3 / 1000, 10)
    ∧ (100 : ℚ) ≤ (3 / 1000) * 50000 := by
  have e2 : Buy.stepNotional (3 / 1000) 10 50000 3 100 = Except.ok (3 / 1000, 10) := by
    unfold Buy.stepNotional
    rw [if_neg (by norm_num)]
  have e3 : Buy.stepSmall (3 / 1000) 10 50000 3 100 = Except.ok (3 / 1000, 10) := by
    unfold Buy.stepSmall
    rw [if_neg (by unfold minUnit; norm_num)]
  have hrun : Buy.buyPipeline (3 / 1000) 10 50000 3 100 = Except.ok (3 / 1000, 10) := by
    unfold Buy.buyPipeline
    rw [if_neg (by norm_num), if_neg (by norm_num)]
    rw [buy_adjustPrecision_eval_three, e2]
    dsimp only
    rw [e3]
    dsimp only
    rw [if_neg (by unfold minUnit; norm_num), if_neg (by norm_num)]
  exact ⟨hrun, buy_submission_meets_minNotional (3 / 1000) 10 50000 3 100
    (3 / 1000) 10 hrun⟩

/-- C8 (claim). For every price > 0 and every rule with minNotional > 0,
the minNotional escalation amount of `smartAdjustOrderForMinNotional` —
the quantized `minNotional/price` plus, when that still undershoots,
exactly one minimal unit — satisfies `amount * price ≥ minNotional`:
adding one minimal unit always suffices to cross the threshold under
exact arithmetic, so the failure branch re-checking the escalated
notional in `buy` is unreachable. -/
theorem minNotional_escalation_sufficient (a lev price : ℚ) (d : ℕ) (m : ℚ)
    (hp : 0 < price) (hm : 0 < m) :
    m ≤ (Buy.smartAdjustOrderForMinNotional a price lev d m).adjustedAmount * price := by
  unfold Buy.smartAdjustOrderForMinNotional
  split
  · next h1 => exact h1
  · split
    · next h1 h2 =>
      show m ≤ (Buy.adjustPrecision (m / price) d + minUnit d) * price
      have hf := ten_pow_pos d
      have hx : m / price * 10 ^ d < (⌊m / price * 10 ^ d⌋ : ℚ) + 1 :=
        Int.lt_floor_add_one _
      have hkey : m < ((⌊m / price * 10 ^ d⌋ : ℚ) + 1) * (price / 10 ^ d) := by
        have h0 : (0 : ℚ) < price / 10 ^ d := by positivity
        calc m = m / price * 10 ^ d * (price / 10 ^ d) := by
              field_simp
        _ < ((⌊m / price * 10 ^ d⌋ : ℚ) + 1) * (price / 10 ^ d) :=
              mul_lt_mul_of_pos_right hx h0
      have heq : ((⌊m / price * 10 ^ d⌋ : ℚ) + 1) * (price / 10 ^ d)
          = (Buy.adjustPrecision (m / price) d + minUnit d) * price := by
        unfold Buy.adjustPrecision quantFloor minUnit
        field_simp
      rw [← heq]
      exact hkey.le
    · next h1 h2 =>
      show m ≤ Buy.adjustPrecision (m / price) d * price
      exact not_lt.mp h2

/-- Witness for `minNotional_escalation_sufficient`: escalating a zero
amount at price 50000 under the BTCUSDT rule yields an amount whose
notional meets the 100 threshold. -/
theorem minNotional_escalation_sufficient_witness :
    (100 : ℚ) ≤
      (Buy.smartAdjustOrderForMinNotional 0 50000 10 3 100).adjustedAmount * 50000 :=
  minNotional_escalation_sufficient 0 10 50000 3 100 (by norm_num) (by norm_num)

/-- C7 (claim). When a buy's quantized amount is below the minimal
tradable unit (and positive, with a positive price), the small-amount
escalation computes the multiplier
`ceil(minPositionValue / currentPositionValue)` needed for the
minimal-unit notional, proposes leverage
`min(originalLeverage * multiplier, 30)`, and accepts — setting the
amount to the minimal unit with the proposed leverage — exactly when the
multiplier is at most 20 (the proposed leverage is then automatically at
most 30); otherwise it rejects with an explanatory error, which `buy`
reports as `success:false`. -/
theorem smallOrderEscalation_spec (a price lev : ℚ) (d : ℕ)
    (hp : 0 < price) (ha : 0 < a) (hsmall : a < minUnit d) :
    ((⌈minUnit d * price / (a * price)⌉ : ℤ) ≤ 20 →
      Buy.smallOrderEscalation a price lev d =
        Except.ok (minUnit d,
          min (lev * ((⌈minUnit d * price / (a * price)⌉ : ℤ) : ℚ)) 30)
      ∧ min (lev * ((⌈minUnit d * price / (a * price)⌉ : ℤ) : ℚ)) 30 ≤ 30)
    ∧ (20 < (⌈minUnit d * price / (a * price)⌉ : ℤ) →
      Buy.smallOrderEscalation a price lev d = Except.error Buy.smallOrderRejectMsg) := by
  have hne : a * price ≠ 0 := (mul_pos ha hp).ne'
  constructor
  · intro hle
    constructor
    · unfold Buy.smallOrderEscalation
      rw [if_neg hne, if_pos ⟨min_le_right _ _, hle⟩]
    · exact min_le_right _ _
  · intro hgt
    unfold Buy.smallOrderEscalation
    rw [if_neg hne, if_neg (fun hc => absurd hc.2 (not_le.mpr hgt))]

/-- Witness for `smallOrderEscalation_spec`: 0.0005 BTC at price 50000
needs multiplier 2 ≤ 20, so the escalation accepts the minimal unit with
leverage `min(10 * 2, 30) = 20`. -/
theorem smallOrderEscalation_spec_witness :
    Buy.smallOrderEscalation (1 / 2000) 50000 10 3 = Except.ok (minUnit 3, 20) := by
  have hceil : (⌈minUnit 3 * 50000 / ((1 / 2000 : ℚ) * 50000)⌉ : ℤ) = 2 := by
    rw [show minUnit 3 * 50000 / ((1 / 2000 : ℚ) * 50000) = ((2 : ℤ) : ℚ) by
      unfold minUnit; norm_num]
    exact Int.ceil_intCast 2
  have h := (smallOrderEscalation_spec (1 / 2000) 50000 10 3 (by norm_num)
    (by norm_num) (by unfold minUnit; norm_num)).1 (by rw [hceil]; norm_num)
  rw [h.1, hceil, show min ((10 : ℚ) * ((2 : ℤ) : ℚ)) 30 = 20 by norm_num]

/-- C6 (claim). The submission loop makes at most 3 attempts, sleeps a
linear backoff of `attempt * base` between attempts (with the call-site
specific base delay), and when all three attempts fail the boundary
returns `{success: false, error: <last error>}` instead of letting the
exception propagate. -/
theorem submit_retry_spec (o : ℕ → Except String String) (base : ℕ) :
    (submitWithRetry o base).attemptsMade ≤ 3
    ∧ (submitWithRetry o base).delays =
      (List.range ((submitWithRetry o base).attemptsMade - 1)).map
        (fun i => (i + 1) * base)
    ∧ ∀ e1 e2 e3, o 1 = Except.error e1 → o 2 = Except.error e2 →
        o 3 = Except.error e3 →
        submitBoundary o base = ⟨false, none, some e3⟩ := by
  cases h1 : o 1 with
  | ok f =>
    refine ⟨by simp [submitWithRetry, h1], by simp [submitWithRetry, h1], ?_⟩
    intro e1 e2 e3 he1 he2 he3
    exact Except.noConfusion he1
  | error e =>
    cases h2 : o 2 with
    | ok f =>
      refine ⟨by simp [submitWithRetry, h1, h2], ?_, ?_⟩
      · simp [submitWithRetry, h1, h2, List.range_succ]
      · intro e1 e2 e3 he1 he2 he3
        exact Except.noConfusion he2
    | error e' =>
      cases h3 : o 3 with
      | ok f =>
        refine ⟨by simp [submitWithRetry, h1, h2, h3], ?_, ?_⟩
        · simp [submitWithRetry, h1, h2, h3, List.range_succ]
        · intro e1 e2 e3 he1 he2 he3
          exact Except.noConfusion he3
      | error e'' =>
        refine ⟨by simp [submitWithRetry, h1, h2, h3], ?_, ?_⟩
        · simp [submitWithRetry, h1, h2, h3, List.range_succ]
        · intro e1 e2 e3 he1 he2 he3
          injection he3 with h4
          simp [submitBoundary, submitWithRetry, h1, h2, h3, h4]

/-- Witness for `submit_retry_spec`: three timeouts at base delay 2000
yield `{success: false, error: "timeout"}`. -/
theorem submit_retry_spec_witness :
    submitBoundary (fun _ => Except.error "timeout") 2000 =
      ⟨false, none, some "timeout"⟩ :=
  (submit_retry_spec (fun _ => Except.error "timeout") 2000).2.2
    "timeout" "timeout" "timeout" rfl rfl rfl

/-- C9 (claim). Order-parameter construction is position-mode aware: in
dual-side mode every order carries a positionSide tag matching its
long/short direction (LONG for `buy`, SHORT for `shortSell`, the held
side for `closePosition`); in one-way mode opening orders carry no
positionSide and closing orders carry `reduceOnly = true` instead. -/
theorem orderParams_position_mode_aware :
    ∀ (q : ℚ) (p : Option ℚ) (ps : PositionSide),
      (Buy.buildOrderParams PositionMode.dualSide q p).positionSide =
        some PositionSide.LONG
      ∧ (Sell.buildShortOrderParams PositionMode.dualSide q p).positionSide =
          some PositionSide.SHORT
      ∧ (Sell.buildCloseOrderParams PositionMode.dualSide ps q p).positionSide =
          some ps
      ∧ (Sell.buildCloseOrderParams PositionMode.dualSide ps q p).reduceOnly = false
      ∧ (Buy.buildOrderParams PositionMode.oneWay q p).positionSide = none
      ∧ (Buy.buildOrderParams PositionMode.oneWay q p).reduceOnly = false
      ∧ (Sell.buildShortOrderParams PositionMode.oneWay q p).positionSide = none
      ∧ (Sell.buildShortOrderParams PositionMode.oneWay q p).reduceOnly = false
      ∧ (Sell.buildCloseOrderParams PositionMode.oneWay ps q p).positionSide = none
      ∧ (Sell.buildCloseOrderParams PositionMode.oneWay ps q p).reduceOnly = true := by
  intro q p ps
  exact ⟨rfl, rfl, rfl, rfl, rfl, rfl, rfl, rfl, rfl, rfl⟩

/-- C5 (code bug evidence). After a position-side-mismatch error the
recovery branch of the legacy `sell` rebuilds the order parameters from a
fresh `positionMode()` query (here answering dual-side), but the
module-level `positionModeCache` is left untouched — and a subsequent
`getPositionMode` call still returns the stale cached `ONE_WAY` without
issuing any query, contradicting the claimed invalidation (and the
branch's own comment, which says the cache is cleared). -/
theorem positionModeCache_stale_after_mismatch :
    (ClosePos.handleMismatch (some PositionMode.oneWay) true ClosePos.staleParams
        PositionSide.LONG).1 = some PositionMode.oneWay
    ∧ (ClosePos.handleMismatch (some PositionMode.oneWay) true ClosePos.staleParams
        PositionSide.LONG).2.positionSide = some PositionSide.LONG
    ∧ (ClosePos.handleMismatch (some PositionMode.oneWay) true ClosePos.staleParams
        PositionSide.LONG).2.reduceOnly = false
    ∧ Buy.getPositionMode (some PositionMode.oneWay) (Buy.ModeQueryOutcome.sdkOk true)
      = ⟨PositionMode.oneWay, some PositionMode.oneWay, false⟩ :=
  ⟨rfl, rfl, rfl, rfl⟩

/-- C10 (claim). `getPositionMode` never throws: on the complete-failure
paths (SDK unusable and REST fallback failing, or any exception reaching
the outer catch) it returns `ONE_WAY` and stores it in the module-level
cache, and every call that finds a cached value returns it without
issuing any exchange query — so a resolution failure is cached
permanently, never retried. -/
theorem getPositionMode_failure_defaults :
    ∀ (outcome : Buy.ModeQueryOutcome) (m : PositionMode),
      Buy.getPositionMode none Buy.ModeQueryOutcome.restFail =
        ⟨PositionMode.oneWay, some PositionMode.oneWay, true⟩
      ∧ Buy.getPositionMode none Buy.ModeQueryOutcome.outerThrow =
        ⟨PositionMode.oneWay, some PositionMode.oneWay, true⟩
      ∧ Buy.getPositionMode (some m) outcome = ⟨m, some m, false⟩ := by
  intro outcome m
  exact ⟨rfl, rfl, rfl⟩

section LedgerLemmas

lemma stepDecision_cases (r : ℚ) (dec : Orchestrator.Decision) :
    Orchestrator.stepDecision r dec = (r, none)
    ∨ ∃ mg, Orchestrator.stepDecision r dec = (r - mg, some mg) ∧ mg ≤ r := by
  obtain ⟨op, bf, risk, fill⟩ := dec
  cases op
  case Buy =>
    cases bf with
    | none => left; rfl
    | some b =>
      by_cases h1 : b.amount = none ∨ b.leverage = none
      · left
        simp [Orchestrator.stepDecision, h1]
      · cases risk with
        | false =>
          left
          simp [Orchestrator.stepDecision, h1]
        | true =>
          by_cases h3 : r < Orchestrator.requiredMargin b
          · left
            simp [Orchestrator.stepDecision, h1, h3]
          · cases fill with
            | false =>
              left
              simp [Orchestrator.stepDecision, h1, h3]
            | true =>
              right
              refine ⟨Orchestrator.requiredMargin b, ?_, not_lt.mp h3⟩
              simp [Orchestrator.stepDecision, h1, h3]
  case Sell => left; rfl
  case Hold => left; rfl
  case Close => left; rfl

lemma runBatch_fst_eq (ds : List Orchestrator.Decision) :
    ∀ r : ℚ, (Orchestrator.runBatch r ds).1 = r - ((Orchestrator.runBatch r ds).2).sum := by
  induction ds with
  | nil =>
    intro r
    simp [Orchestrator.runBatch]
  | cons dec rest ih =>
    intro r
    rcases stepDecision_cases r dec with h | ⟨mg, h, hle⟩
    · simp only [Orchestrator.runBatch, h]
      simpa using ih r
    · simp only [Orchestrator.runBatch, h]
      rw [ih (r - mg)]
      simp
      ring

lemma runBatch_nonneg (ds : List Orchestrator.Decision) :
    ∀ r : ℚ, 0 ≤ r → 0 ≤ (Orchestrator.runBatch r ds).1 := by
  induction ds with
  | nil =>
    intro r hr
    simpa [Orchestrator.runBatch] using hr
  | cons dec rest ih =>
    intro r hr
    rcases stepDecision_cases r dec with h | ⟨mg, h, hle⟩
    · simpa [Orchestrator.runBatch, h] using ih r hr
    · have hnn : 0 ≤ r - mg := sub_nonneg.mpr hle
      simpa [Orchestrator.runBatch, h] using ih (r - mg) hnn

end LedgerLemmas

/-- C4 (claim). During one orchestration run the margin ledger starts at
the account's available cash and each buy decision commits its
`requiredMargin = amount * price / leverage` only after a confirmed
successful fill, after passing the gate rejecting margins above the
remaining cash; hence the remaining cash always equals the initial cash
minus the sum of the committed margins, and (for a non-negative starting
balance) it is never negative at any point of the run. -/
theorem run_remaining_cash_ledger (init : ℚ) (ds : List Orchestrator.Decision)
    (h0 : 0 ≤ init) :
    (Orchestrator.runBatch init ds).1 =
      init - ((Orchestrator.runBatch init ds).2).sum
    ∧ ∀ k : ℕ, 0 ≤ (Orchestrator.runBatch init (ds.take k)).1 :=
  ⟨runBatch_fst_eq ds init, fun k => runBatch_nonneg (ds.take k) init h0⟩

/-- Witness for `run_remaining_cash_ledger`: one successful buy of margin
100 against 150 of available cash. -/
theorem run_remaining_cash_ledger_witness :
    (Orchestrator.runBatch 150 [⟨Orchestrator.Opeartion.Buy,
        some ⟨some 1, some 1000, some 10⟩, true, true⟩]).1
      = 150 - ((Orchestrator.runBatch 150 [⟨Orchestrator.Opeartion.Buy,
        some ⟨some 1, some 1000, some 10⟩, true, true⟩]).2).sum
    ∧ 0 ≤ (Orchestrator.runBatch 150 ([⟨Orchestrator.Opeartion.Buy,
        some ⟨some 1, some 1000, some 10⟩, true, true⟩].take 1)).1 := by
  have h := run_remaining_cash_ledger 150 [⟨Orchestrator.Opeartion.Buy,
    some ⟨some 1, some 1000, some 10⟩, true, true⟩] (by norm_num)
  exact ⟨h.1, h.2 1⟩
